import Mathlib

/-!
Verification of the Wikipedia MCP server and CLI client
(pydata-mcp-workshop).

Python strings are modelled as `List Char`.  The pure string logic of the
tool functions (validation, summary sentence-splitting, content
truncation, disambiguation resolution, chat-loop dispatch) is translated
directly from `solution/servers/wikipedia_server.py`,
`solution/advanced/wikipedia_server.py` and
`solution/clients/cli_client.py`.  External collaborators (the Wikipedia
article source, the HTTP search endpoint, the elicitation transport and
the agent runtime) are passed in as function/value parameters; raised
`ValueError`s become `Except.error`.
-/

/-- ASCII single quote, used inside the Python error-message literals. -/
def sqc : Char := Char.ofNat 39

/-- Python `str.isspace` characters relevant here: space, tab, newline,
carriage return, vertical tab, form feed.  (Python also strips some
Unicode spaces; none of the verified properties depend on those.) -/
def isPySpace (c : Char) : Bool :=
  c = ' ' || c = Char.ofNat 9 || c = Char.ofNat 10 || c = Char.ofNat 13 ||
  c = Char.ofNat 11 || c = Char.ofNat 12

/-- Python `str.strip()`: drop leading and trailing whitespace. -/
def pyStrip (l : List Char) : List Char :=
  ((l.dropWhile isPySpace).reverse.dropWhile isPySpace).reverse

/-- Python `str.lower()` (ASCII; the verified strings are ASCII). -/
def pyLower (l : List Char) : List Char :=
  l.map Char.toLower

/-- `listStartsWith needle hay`: `hay` begins with `needle`. -/
def listStartsWith : List Char → List Char → Bool
  | [], _ => true
  | _ :: _, [] => false
  | a :: as, b :: bs => a = b && listStartsWith as bs

/-- Python's `needle in hay` substring test. -/
def containsSub (needle : List Char) : List Char → Bool
  | [] => needle.isEmpty
  | c :: rest => listStartsWith needle (c :: rest) || containsSub needle rest

/-- Python `str.endswith`. -/
def pyEndsWith (tail l : List Char) : Bool :=
  listStartsWith tail.reverse l.reverse

/-- Python `sep.join(fragments)`. -/
def joinSep (sep : List Char) : List (List Char) → List Char
  | [] => []
  | [x] => x
  | x :: y :: rest => x ++ sep ++ joinSep sep (y :: rest)

/-- Python `s.split(sep)` for a one-character separator: always returns a
non-empty list of (possibly empty) fragments, none containing `sep`. -/
def pySplit (sep : Char) : List Char → List (List Char)
  | [] => [[]]
  | c :: rest =>
    match pySplit sep rest with
    | [] => [[]]
    | f :: fs => if c = sep then [] :: f :: fs else (c :: f) :: fs

/-- Index of the last occurrence of `c`, counted from the head;
`none` when absent. -/
def pyRfindAux (c : Char) : List Char → Option Nat
  | [] => none
  | x :: xs =>
    match pyRfindAux c xs with
    | some i => some (i + 1)
    | none => if x = c then some 0 else none

/-- Python `str.rfind(c)`: last index of `c`, or `-1` when absent. -/
def pyRfind (c : Char) (l : List Char) : Int :=
  match pyRfindAux c l with
  | some i => (i : Int)
  | none => -1

/-- Digit accumulator for `pyParseInt`. -/
def pyDigitsAux (acc : Nat) : List Char → Option Nat
  | [] => some acc
  | c :: rest =>
    if c.isDigit then pyDigitsAux (acc * 10 + (c.toNat - 48)) rest else none

/-- Python `int(s)` on an already-stripped string: optional sign followed
by one or more ASCII digits, `none` when the parse raises `ValueError`.
(Python additionally accepts underscore digit separators and non-ASCII
digits; the verified properties do not depend on those.) -/
def pyParseInt (l : List Char) : Option Int :=
  match l with
  | [] => none
  | c :: rest =>
    if c = '-' then
      match rest with
      | [] => none
      | _ => (pyDigitsAux 0 rest).map (fun n => -(n : Int))
    else if c = '+' then
      match rest with
      | [] => none
      | _ => (pyDigitsAux 0 rest).map (fun n => (n : Int))
    else (pyDigitsAux 0 l).map (fun n => (n : Int))

/-- A resolved Wikipedia page as exposed by the `wikipediaapi` client:
the fields the server reads. -/
structure Page where
  title : List Char
  fullurl : List Char
  summary : List Char
  text : List Char
  categories : List (List Char)
  linksCount : Nat

/-- The article source: `wiki.page(t)` plus `page.exists()`; `none`
models a title that does not exist. -/
def WikiDb : Type := List Char → Option Page

/-- The truncation marker appended by `get_article_content` and
`get_article_with_progress`: `"\n\n[Content truncated...]"`. -/
def TRUNC_MARKER : List Char :=
  (Char.ofNat 10) :: (Char.ofNat 10) :: "[Content truncated...]".toList

/-- The truncation block of `get_article_content`
(`solution/servers/wikipedia_server.py` lines 155-168) and of
`get_article_with_progress` (`solution/advanced/wikipedia_server.py`
lines 164-177); both bodies are identical.

The Python guard is `break_point > max_length * 0.8` with `0.8` a binary
double.  For every integer `break_point` and every `max_length` in the
validated range `[100, 10000]`, the double `max_length * 0.8` rounds to
exactly `0.8 * max_length` whenever that value is an integer and stays
within `1e-12` of it otherwise, so the float comparison coincides with
the exact rational comparison `5 * break_point > 4 * max_length`, which
is how it is rendered here. -/
def truncateContent (content : List Char) (maxLength : Nat) : List Char :=
  if content.length > maxLength then
    let truncated := content.take maxLength
    let lastPeriod := pyRfind '.' truncated
    let lastNewline := pyRfind (Char.ofNat 10) truncated
    let breakPoint := max lastPeriod lastNewline
    if 5 * breakPoint > 4 * (maxLength : Int) then
      content.take (breakPoint + 1).toNat ++ TRUNC_MARKER
    else
      truncated ++ "...".toList ++ TRUNC_MARKER
  else content

/-- Error message `f"Article '{title}' not found on Wikipedia"`. -/
def notFoundMsg (title : List Char) : List Char :=
  "Article ".toList ++ [sqc] ++ title ++ [sqc] ++ " not found on Wikipedia".toList

/-- Error message `f"No summary available for article '{title}'"`. -/
def noSummaryMsg (title : List Char) : List Char :=
  "No summary available for article ".toList ++ [sqc] ++ title ++ [sqc]

/-- Error message `f"No content available for article '{title}'"`. -/
def noContentMsg (title : List Char) : List Char :=
  "No content available for article ".toList ++ [sqc] ++ title ++ [sqc]

/-- The `except Exception` clause shared by the three article tools:
an error whose lowercased text contains `"not found"` is re-raised
unchanged, anything else is wrapped as `f"Failed to ...: {e}"`. -/
def wrapPyError (wrapMsg e : List Char) : List Char :=
  if containsSub "not found".toList (pyLower e) then e else wrapMsg ++ e

/-- `search_wikipedia` (`solution/servers/wikipedia_server.py` lines
29-71).  `searchFn` models the Wikimedia search endpoint: given the
stripped query and the limit it returns the matching titles. -/
def search_wikipedia (searchFn : List Char → Int → List (List Char))
    (query : List Char) (limit : Int) : Except (List Char) (List (List Char)) :=
  if pyStrip query = [] then .error "Query cannot be empty".toList
  else if limit < 1 ∨ limit > 10 then .error "Limit must be between 1 and 10".toList
  else .ok (searchFn (pyStrip query) limit)

/-- The sentence-limiting pipeline of `get_article_summary`
(`solution/servers/wikipedia_server.py` lines 106-112): split on periods,
strip fragments, drop empty ones, keep the first `sentences`, rejoin with
`". "`, and append a final period to a non-empty result that lacks one. -/
def summarize (summary : List Char) (sentences : Nat) : List Char :=
  let sentencesList := ((pySplit '.' summary).map pyStrip).filter (fun s => !s.isEmpty)
  let limited := sentencesList.take sentences
  let result := joinSep ". ".toList limited
  if !result.isEmpty && !pyEndsWith ['.'] result then result ++ ['.'] else result

/-- `get_article_summary` (`solution/servers/wikipedia_server.py` lines
75-121). -/
def get_article_summary (db : WikiDb) (title : List Char) (sentences : Int) :
    Except (List Char) (List Char) :=
  if pyStrip title = [] then .error "Article title cannot be empty".toList
  else if sentences < 1 ∨ sentences > 10 then
    .error "Sentences must be between 1 and 10".toList
  else
    match db (pyStrip title) with
    | none => .error (wrapPyError "Failed to get article summary: ".toList (notFoundMsg title))
    | some page =>
      if page.summary = [] then
        .error (wrapPyError "Failed to get article summary: ".toList (noSummaryMsg title))
      else .ok (summarize page.summary sentences.toNat)

/-- `get_article_content` (`solution/servers/wikipedia_server.py` lines
125-177); the truncation block is `truncateContent`. -/
def get_article_content (db : WikiDb) (title : List Char) (maxLength : Int) :
    Except (List Char) (List Char) :=
  if pyStrip title = [] then .error "Article title cannot be empty".toList
  else if maxLength < 100 ∨ maxLength > 10000 then
    .error "max_length must be between 100 and 10000".toList
  else
    match db (pyStrip title) with
    | none => .error (wrapPyError "Failed to get article content: ".toList (notFoundMsg title))
    | some page =>
      if page.text = [] then
        .error (wrapPyError "Failed to get article content: ".toList (noContentMsg title))
      else .ok (truncateContent page.text maxLength.toNat)

/-- The metadata dictionary returned by `get_article_info`. -/
structure ArticleInfo where
  title : List Char
  url : List Char
  summaryLength : Nat
  contentLength : Nat
  categories : List (List Char)
  linksCount : Nat

/-- `get_article_info` (`solution/servers/wikipedia_server.py` lines
181-218). -/
def get_article_info (db : WikiDb) (title : List Char) :
    Except (List Char) ArticleInfo :=
  if pyStrip title = [] then .error "Article title cannot be empty".toList
  else
    match db (pyStrip title) with
    | none => .error (wrapPyError "Failed to get article info: ".toList (notFoundMsg title))
    | some page =>
      .ok { title := page.title, url := page.fullurl,
            summaryLength := page.summary.length,
            contentLength := page.text.length,
            categories := page.categories.take 10,
            linksCount := page.linksCount }

/-- Outcome of `ctx.elicit`: an accepted free-text reply, or any
non-accept action (decline/cancel). -/
inductive ElicitResult where
  | accept (data : List Char)
  | declined

/-- Message `f"No Wikipedia articles found for '{query}'"`. -/
def noResultsMsg (query : List Char) : List Char :=
  "No Wikipedia articles found for ".toList ++ [sqc] ++ query ++ [sqc]

/-- Message `f"Invalid selection '{user_input}'. Please enter a title
name or number 1-{len(search_results)}."`. -/
def invalidSelMsg (userInput : List Char) (n : Nat) : List Char :=
  "Invalid selection ".toList ++ [sqc] ++ userInput ++ [sqc] ++
  ". Please enter a title name or number 1-".toList ++ (Nat.repr n).toList ++ ['.']

/-- The `for title in search_results` loop of `interactive_search`
(lines 104-107): first title whose lowercase form contains the lowercase
reply. -/
def firstTitleMatch (userInput : List Char) : List (List Char) → Option (List Char)
  | [] => none
  | t :: rest =>
    if containsSub (pyLower userInput) (pyLower t) then some t
    else firstTitleMatch userInput rest

/-- `interactive_search` (`solution/advanced/wikipedia_server.py` lines
63-121).  `searchFn` models the search endpoint as in `search_wikipedia`
(the code calls `search_wikipedia.fn(query, limit=8)`); `elicitReply`
models the reply transported back by `ctx.elicit`.

The numeric-selection fallback (lines 110-117) runs inside
`try: ... except ValueError: pass`: both a failing `int(user_input)` and
a `ValueError` raised by `get_article_summary.fn(selected_title)` (its
only failure kind) are swallowed, falling through to the
invalid-selection message.  The single-result and title-match summary
calls (lines 89 and 107) sit outside any `try`, so their failures
propagate. -/
def interactive_search (searchFn : List Char → Int → List (List Char)) (db : WikiDb)
    (elicitReply : ElicitResult) (query : List Char) : Except (List Char) (List Char) :=
  if pyStrip query = [] then .error "Query cannot be empty".toList
  else
    match search_wikipedia searchFn query 8 with
    | .error e => .error e
    | .ok searchResults =>
      if searchResults = [] then .ok (noResultsMsg query)
      else if searchResults.length = 1 then
        get_article_summary db searchResults.headI 3
      else
        match elicitReply with
        | .accept data =>
          let userInput := pyStrip data
          match firstTitleMatch userInput searchResults with
          | some t => get_article_summary db t 3
          | none =>
            match pyParseInt userInput with
            | some choiceNum =>
              if 1 ≤ choiceNum ∧ choiceNum ≤ searchResults.length then
                match get_article_summary db
                    (searchResults.getD (choiceNum.toNat - 1) []) 3 with
                | .ok s => .ok s
                | .error _ => .ok (invalidSelMsg userInput searchResults.length)
              else .ok (invalidSelMsg userInput searchResults.length)
            | none => .ok (invalidSelMsg userInput searchResults.length)
        | .declined => .ok "Search cancelled or invalid selection.".toList

/-- The quit commands of the CLI chat loop
(`solution/clients/cli_client.py` line 178). -/
def QUIT_COMMANDS : List (List Char) := ["quit".toList, "exit".toList, "q".toList]

/-- The history commands (line 182). -/
def HISTORY_COMMANDS : List (List Char) := ["history".toList, "hist".toList, "h".toList]

/-- The clear commands (line 187). -/
def CLEAR_COMMANDS : List (List Char) := ["clear".toList, "clear history".toList, "reset".toList]

/-- The console line printed when the agent call raises (line 234),
`f"\n❌ Error processing your request: {e}"`. -/
def errorReportLine (e : List Char) : List Char :=
  "\n❌ Error processing your request: ".toList ++ e

/-- The observable outcome of one chat-loop iteration: whether the loop
breaks, and the console messages printed. -/
structure StepResult where
  terminate : Bool
  output : List (List Char)

/-- One iteration of the `while True` body of `chat_session`
(`solution/clients/cli_client.py` lines 173-237), given the agent call
as a function (`Except.error` models a raised exception).  `terminate`
records whether the iteration runs `break`; `output` the panels/messages
printed.  The history table and the spinner are display-only and appear
here as the empty/fixed outputs of their branches. -/
def chatStep (agent : List Char → Except (List Char) (List Char))
    (rawInput : List Char) : StepResult :=
  let userInput := pyStrip rawInput
  let lowered := pyLower userInput
  if lowered ∈ QUIT_COMMANDS then
    { terminate := true, output := ["👋 Thanks for using MCP Research Assistant!".toList] }
  else if lowered ∈ HISTORY_COMMANDS then
    { terminate := false, output := [] }
  else if lowered ∈ CLEAR_COMMANDS then
    { terminate := false, output := ["🗑️  Chat history cleared".toList] }
  else if userInput = [] then
    { terminate := false, output := [] }
  else
    match agent userInput with
    | .ok out => { terminate := false, output := [out] }
    | .error e =>
      { terminate := false,
        output := [errorReportLine e,
                   "Please try rephrasing your question or check your connection.\n".toList] }

/-- The chat loop driven by a queue of user inputs: processes inputs in
order until a quit command breaks the loop (or input is exhausted,
modelling an external interrupt); returns the per-iteration outputs. -/
def chatLoop (agent : List Char → Except (List Char) (List Char)) :
    List (List Char) → List (List (List Char))
  | [] => []
  | i :: rest =>
    let r := chatStep agent i
    if r.terminate then [r.output] else r.output :: chatLoop agent rest

/-- The disambiguation candidates of the spec's worked example. -/
def pythonCandidates : List (List Char) :=
  ["Python (programming language)".toList, "Python (mythology)".toList,
   "Python (snake)".toList]

/-- A search endpoint returning the worked example's candidates. -/
def pythonSearchFn : List Char → Int → List (List Char) :=
  fun _ _ => pythonCandidates

/-- A page fixture with the given summary and body text. -/
def mkPage (s text : List Char) : Page :=
  { title := "T".toList, fullurl := [], summary := s, text := text,
    categories := [], linksCount := 0 }

/-- An article source resolving every title to the same page. -/
def constDb (p : Page) : WikiDb := fun _ => some p

/-- An article source with no articles at all. -/
def emptyDb : WikiDb := fun _ => none

/-- A 102-character body whose last period sits at index 90, past 80% of
a 100-character budget. -/
def clean90Text : List Char :=
  List.replicate 90 'a' ++ ['.'] ++ List.replicate 11 'b'

/-- A 101-character body containing no period and no newline. -/
def plainLongText : List Char := List.replicate 101 'a'

/-- Claim-side description of the summary pipeline's surviving
fragments: split on periods, strip, discard whitespace-only pieces. -/
def summaryFragments (s : List Char) : List (List Char) :=
  ((pySplit '.' s).map pyStrip).filter (fun f => !f.isEmpty)

/-- Claim-side description of the rejoined text: first `n` fragments
joined with `". "`. -/
def summaryJoined (s : List Char) (n : Nat) : List Char :=
  joinSep ". ".toList ((summaryFragments s).take n)

theorem listStartsWith_append (s t : List Char) :
    listStartsWith s (s ++ t) = true := by
  induction s with
  | nil => rfl
  | cons a as ih => simp [listStartsWith, ih]

theorem containsSub_nil (l : List Char) : containsSub [] l = true := by
  induction l with
  | nil => rfl
  | cons c rest ih => simp [containsSub, listStartsWith]

theorem containsSub_cons (s : List Char) (c : Char) (l : List Char)
    (h : containsSub s l = true) : containsSub s (c :: l) = true := by
  simp [containsSub, h]

theorem containsSub_append_left (s x l : List Char)
    (h : containsSub s l = true) : containsSub s (x ++ l) = true := by
  induction x with
  | nil => simpa using h
  | cons c cs ih => simpa using containsSub_cons s c (cs ++ l) ih

theorem containsSub_self (s t : List Char) : containsSub s (s ++ t) = true := by
  cases s with
  | nil => simpa using containsSub_nil t
  | cons a as =>
    show containsSub (a :: as) (a :: (as ++ t)) = true
    simp only [containsSub, Bool.or_eq_true]
    exact Or.inl (listStartsWith_append (a :: as) t)

theorem containsSub_of_starts (s l : List Char)
    (h : listStartsWith s l = true) : containsSub s l = true := by
  cases l with
  | nil =>
    cases s with
    | nil => rfl
    | cons a as => simp [listStartsWith] at h
  | cons c rest => simp [containsSub, h]

theorem notFoundMsg_contains_title (t : List Char) :
    containsSub t (notFoundMsg t) = true := by
  simp only [notFoundMsg, List.append_assoc]
  apply containsSub_append_left
  apply containsSub_append_left
  exact containsSub_self t _

theorem notFoundMsg_contains_nf (t : List Char) :
    containsSub "not found".toList (pyLower (notFoundMsg t)) = true := by
  simp only [notFoundMsg, pyLower, List.map_append, List.append_assoc]
  apply containsSub_append_left
  apply containsSub_append_left
  apply containsSub_append_left
  apply containsSub_append_left
  decide

theorem wrapPyError_notFound (pre t : List Char) :
    wrapPyError pre (notFoundMsg t) = notFoundMsg t := by
  unfold wrapPyError
  rw [if_pos (notFoundMsg_contains_nf t)]

/-- C7: for every query that is empty after trimming, or every limit
outside [1,10], `search_wikipedia` fails with an invalid-argument error
before issuing any external call (the result is a fixed error for every
`searchFn`); likewise for every title empty after trimming or sentence
count outside [1,10], `get_article_summary` fails with an
invalid-argument error before any lookup (for every `db`). -/
theorem C7_input_validation
    (searchFn : List Char → Int → List (List Char)) (db : WikiDb)
    (query title : List Char) (limit sentenceCount : Int) :
    (pyStrip query = [] →
      search_wikipedia searchFn query limit = .error "Query cannot be empty".toList) ∧
    (pyStrip query ≠ [] → (limit < 1 ∨ limit > 10) →
      search_wikipedia searchFn query limit =
        .error "Limit must be between 1 and 10".toList) ∧
    (pyStrip title = [] →
      get_article_summary db title sentenceCount =
        .error "Article title cannot be empty".toList) ∧
    (pyStrip title ≠ [] → (sentenceCount < 1 ∨ sentenceCount > 10) →
      get_article_summary db title sentenceCount =
        .error "Sentences must be between 1 and 10".toList) := by
  refine ⟨fun h => ?_, fun h1 h2 => ?_, fun h => ?_, fun h1 h2 => ?_⟩
  · simp [search_wikipedia, h]
  · simp [search_wikipedia, h1, h2]
  · simp [get_article_summary, h]
  · simp [get_article_summary, h1, h2]

/-- Witness for C7 at concrete inputs. -/
theorem C7_input_validation_witness :
    search_wikipedia (fun _ _ => []) "  ".toList 5 =
      .error "Query cannot be empty".toList ∧
    search_wikipedia (fun _ _ => []) "cats".toList 11 =
      .error "Limit must be between 1 and 10".toList ∧
    get_article_summary emptyDb "".toList 3 =
      .error "Article title cannot be empty".toList ∧
    get_article_summary emptyDb "Cats".toList 0 =
      .error "Sentences must be between 1 and 10".toList := by
  refine ⟨?_, ?_, ?_, ?_⟩
  · exact (C7_input_validation (fun _ _ => []) emptyDb "  ".toList "x".toList 5 3).1
      (by decide)
  · exact (C7_input_validation (fun _ _ => []) emptyDb "cats".toList "x".toList 11 3).2.1
      (by decide) (by decide)
  · exact (C7_input_validation (fun _ _ => []) emptyDb "x".toList "".toList 5 3).2.2.1
      (by decide)
  · exact (C7_input_validation (fun _ _ => []) emptyDb "x".toList "Cats".toList 5 0).2.2.2
      (by decide) (by decide)

/-- C8: for every title the article source reports as non-existent,
`get_article_summary`, `get_article_content` and `get_article_info` all
fail with the not-found error, whose message contains the requested
title. -/
theorem C8_not_found_message (db : WikiDb) (title : List Char)
    (sentenceCount maxLength : Int)
    (hdb : db (pyStrip title) = none) (ht : pyStrip title ≠ [])
    (hs1 : 1 ≤ sentenceCount) (hs2 : sentenceCount ≤ 10)
    (hm1 : 100 ≤ maxLength) (hm2 : maxLength ≤ 10000) :
    (get_article_summary db title sentenceCount = .error (notFoundMsg title) ∧
     get_article_content db title maxLength = .error (notFoundMsg title) ∧
     get_article_info db title = .error (notFoundMsg title)) ∧
    containsSub title (notFoundMsg title) = true := by
  have hs : ¬ (sentenceCount < 1 ∨ sentenceCount > 10) := by omega
  have hm : ¬ (maxLength < 100 ∨ maxLength > 10000) := by omega
  refine ⟨⟨?_, ?_, ?_⟩, notFoundMsg_contains_title title⟩
  · simp [get_article_summary, ht, hs, hdb, wrapPyError_notFound]
  · simp [get_article_content, ht, hm, hdb, wrapPyError_notFound]
  · simp [get_article_info, ht, hdb, wrapPyError_notFound]

/-- Witness for C8 at a concrete missing title. -/
theorem C8_not_found_message_witness :
    get_article_summary emptyDb "Foo".toList 3 = .error (notFoundMsg "Foo".toList) ∧
    get_article_content emptyDb "Foo".toList 2000 = .error (notFoundMsg "Foo".toList) ∧
    get_article_info emptyDb "Foo".toList = .error (notFoundMsg "Foo".toList) ∧
    containsSub "Foo".toList (notFoundMsg "Foo".toList) = true := by
  have h := C8_not_found_message emptyDb "Foo".toList 3 2000 rfl (by decide)
    (by decide) (by decide) (by decide) (by decide)
  exact ⟨h.1.1, h.1.2.1, h.1.2.2, h.2⟩

/-- C3: for every content string of length at most `max_length` (with
`max_length` in [100,10000] and the content non-empty),
`get_article_content` returns the content unchanged. -/
theorem C3_short_content_unchanged (db : WikiDb) (title : List Char) (page : Page)
    (maxLength : Int) (hdb : db (pyStrip title) = some page)
    (ht : pyStrip title ≠ [])
    (hm1 : 100 ≤ maxLength) (hm2 : maxLength ≤ 10000)
    (hne : page.text ≠ []) (hlen : page.text.length ≤ maxLength.toNat) :
    get_article_content db title maxLength = .ok page.text := by
  have hm : ¬ (maxLength < 100 ∨ maxLength > 10000) := by omega
  have hshort : ¬ (page.text.length > maxLength.toNat) := by omega
  simp [get_article_content, ht, hm, hdb, hne, truncateContent, hshort]

/-- Witness for C3 at a concrete short article. -/
theorem C3_short_content_unchanged_witness :
    get_article_content (constDb (mkPage [] "Hello.".toList)) "T".toList 100 =
      .ok "Hello.".toList := by
  exact C3_short_content_unchanged (constDb (mkPage [] "Hello.".toList)) "T".toList
    (mkPage [] "Hello.".toList) 100 rfl (by decide) (by decide) (by decide)
    (by decide) (by decide)

theorem trunc_marker_len : TRUNC_MARKER.length = 24 := by decide

theorem dots_len : "...".toList.length = 3 := by decide

theorem pyRfindAux_lt (c : Char) (l : List Char) :
    ∀ i, pyRfindAux c l = some i → i < l.length := by
  induction l with
  | nil => intro i h; simp [pyRfindAux] at h
  | cons x xs ih =>
    intro i h
    simp only [pyRfindAux] at h
    cases hx : pyRfindAux c xs with
    | some j =>
      rw [hx] at h
      simp at h
      have := ih j hx
      simp only [List.length_cons]
      omega
    | none =>
      rw [hx] at h
      by_cases hxc : x = c
      · simp [hxc] at h
        simp only [List.length_cons]
        omega
      · simp [hxc] at h

theorem pyRfind_lt (c : Char) (l : List Char) : pyRfind c l < (l.length : Int) := by
  cases hx : pyRfindAux c l with
  | some i =>
    have h2 := pyRfindAux_lt c l i hx
    simp only [pyRfind, hx]
    exact_mod_cast h2
  | none =>
    simp only [pyRfind, hx]
    calc (-1 : Int) < 0 := by norm_num
      _ ≤ (l.length : Int) := by exact_mod_cast Nat.zero_le _

theorem pyEndsWith_append (m x : List Char) : pyEndsWith m (x ++ m) = true := by
  unfold pyEndsWith
  rw [List.reverse_append]
  exact listStartsWith_append m.reverse x.reverse

theorem truncateContent_length_le (content : List Char) (L : Nat)
    (h : L < content.length) :
    (truncateContent content L).length ≤ L + TRUNC_MARKER.length + 3 := by
  simp only [truncateContent]
  rw [if_pos (show content.length > L from h)]
  split
  · have hp := pyRfind_lt '.' (content.take L)
    have hn := pyRfind_lt (Char.ofNat 10) (content.take L)
    rw [List.length_take] at hp hn
    simp only [List.length_append, List.length_take, trunc_marker_len]
    omega
  · simp only [List.length_append, List.length_take, trunc_marker_len, dots_len]
    omega

theorem truncateContent_endsWith (content : List Char) (L : Nat)
    (h : L < content.length) :
    pyEndsWith TRUNC_MARKER (truncateContent content L) = true := by
  simp only [truncateContent]
  rw [if_pos (show content.length > L from h)]
  split
  · exact pyEndsWith_append _ _
  · exact pyEndsWith_append _ _

/-- C1: for every article body longer than `max_length`,
`get_article_content` takes the prefix of length `max_length`, sets
`break_point` to the larger of the last-period and last-newline indices
in that prefix (`-1` when absent), and returns the original content cut
at `break_point + 1` followed by the truncation marker when
`break_point` exceeds 80% of `max_length`, and otherwise the prefix
followed by `"..."` and the marker. -/
theorem C1_content_truncation_algorithm (db : WikiDb) (title : List Char)
    (page : Page) (maxLength : Int)
    (hdb : db (pyStrip title) = some page) (ht : pyStrip title ≠ [])
    (hm1 : 100 ≤ maxLength) (hm2 : maxLength ≤ 10000)
    (hlong : maxLength.toNat < page.text.length) :
    get_article_content db title maxLength =
      .ok (let pref := page.text.take maxLength.toNat
           let breakPoint :=
             max (pyRfind '.' pref) (pyRfind (Char.ofNat 10) pref)
           if 5 * breakPoint > 4 * (maxLength.toNat : Int) then
             page.text.take (breakPoint + 1).toNat ++ TRUNC_MARKER
           else pref ++ "...".toList ++ TRUNC_MARKER) := by
  have hm : ¬ (maxLength < 100 ∨ maxLength > 10000) := by omega
  have hne : page.text ≠ [] := by
    intro hx
    rw [hx, List.length_nil] at hlong
    omega
  simp only [get_article_content, hdb]
  rw [if_neg ht, if_neg hm, if_neg hne]
  simp only [truncateContent]
  rw [if_pos (show page.text.length > maxLength.toNat from hlong)]

set_option maxRecDepth 8000 in
/-- Witness for C1: a 102-character body with its last period at index
90 and a 100-character budget takes the clean-break branch. -/
theorem C1_content_truncation_algorithm_witness :
    get_article_content (constDb (mkPage [] clean90Text)) "T".toList 100 =
      .ok (clean90Text.take 91 ++ TRUNC_MARKER) := by
  have h := C1_content_truncation_algorithm (constDb (mkPage [] clean90Text))
    "T".toList (mkPage [] clean90Text) 100 rfl (by decide) (by decide) (by decide)
    (by decide)
  rw [h]
  congr 1

set_option maxRecDepth 8000 in
/-- C2 as stated is false: a 101-character body with no period and no
newline, truncated to 100 characters, yields a 127-character result,
which exceeds `max_length` (100) plus the marker length (24) because the
hard-cut branch also appends `"..."`. -/
theorem C2_truncation_bound_counterexample :
    get_article_content (constDb (mkPage [] plainLongText)) "T".toList 100 =
      .ok (List.replicate 100 'a' ++ "...".toList ++ TRUNC_MARKER) ∧
    (List.replicate 100 'a' ++ "...".toList ++ TRUNC_MARKER).length = 127 ∧
    TRUNC_MARKER.length = 24 ∧
    ¬ ((List.replicate 100 'a' ++ "...".toList ++ TRUNC_MARKER).length ≤
        100 + TRUNC_MARKER.length) :=
  ⟨by rfl, by decide, by decide, by decide⟩

/-- C2 amended: for content longer than `max_length` (in [100,10000]),
the result of `get_article_content` has length at most `max_length` plus
the marker length plus 3 (for the `"..."` of the hard-cut branch), and
always ends with the truncation marker text. -/
theorem C2_truncation_bound_amended (db : WikiDb) (title : List Char) (page : Page)
    (maxLength : Int) (hdb : db (pyStrip title) = some page)
    (ht : pyStrip title ≠ []) (hm1 : 100 ≤ maxLength) (hm2 : maxLength ≤ 10000)
    (hlong : maxLength.toNat < page.text.length) :
    ∃ r, get_article_content db title maxLength = .ok r ∧
      r.length ≤ maxLength.toNat + TRUNC_MARKER.length + 3 ∧
      pyEndsWith TRUNC_MARKER r = true := by
  have hm : ¬ (maxLength < 100 ∨ maxLength > 10000) := by omega
  have hne : page.text ≠ [] := by
    intro hx
    rw [hx, List.length_nil] at hlong
    omega
  refine ⟨truncateContent page.text maxLength.toNat, ?_,
    truncateContent_length_le _ _ hlong, truncateContent_endsWith _ _ hlong⟩
  simp only [get_article_content, hdb]
  rw [if_neg ht, if_neg hm, if_neg hne]

set_option maxRecDepth 8000 in
/-- Witness for C2 amended at the hard-cut example. -/
theorem C2_truncation_bound_amended_witness :
    get_article_content (constDb (mkPage [] plainLongText)) "T".toList 100 =
      .ok (List.replicate 100 'a' ++ "...".toList ++ TRUNC_MARKER) ∧
    (List.replicate 100 'a' ++ "...".toList ++ TRUNC_MARKER).length ≤
      100 + TRUNC_MARKER.length + 3 ∧
    pyEndsWith TRUNC_MARKER
      (List.replicate 100 'a' ++ "...".toList ++ TRUNC_MARKER) = true := by
  obtain ⟨r, h1, h2, h3⟩ := C2_truncation_bound_amended
    (constDb (mkPage [] plainLongText)) "T".toList (mkPage [] plainLongText) 100
    rfl (by decide) (by decide) (by decide) (by decide)
  have hc : get_article_content (constDb (mkPage [] plainLongText)) "T".toList 100 =
      .ok (List.replicate 100 'a' ++ "...".toList ++ TRUNC_MARKER) := by rfl
  have key := hc.symm.trans h1
  injection key with hr
  rw [← hr] at h2 h3
  exact ⟨hc, h2, h3⟩

theorem mem_dropWhileSub (p : Char → Bool) (l : List Char) (x : Char) :
    x ∈ List.dropWhile p l → x ∈ l := by
  induction l with
  | nil => intro h; simp at h
  | cons a rest ih =>
    simp only [List.dropWhile]
    split
    · intro h
      exact List.mem_cons_of_mem _ (ih h)
    · intro h
      exact h

theorem mem_takeSub (l : List Char) (n : Nat) (x : Char) :
    x ∈ List.take n l → x ∈ l := by
  induction l generalizing n with
  | nil => intro h; simp at h
  | cons a rest ih =>
    cases n with
    | zero => intro h; simp at h
    | succ m =>
      intro h
      rcases List.mem_cons.mp h with h1 | h2
      · exact h1 ▸ List.mem_cons_self _ _
      · exact List.mem_cons_of_mem _ (ih m h2)

theorem memTakeListSub (l : List (List Char)) (n : Nat) (x : List Char) :
    x ∈ List.take n l → x ∈ l := by
  induction l generalizing n with
  | nil => intro h; simp at h
  | cons a rest ih =>
    cases n with
    | zero => intro h; simp at h
    | succ m =>
      intro h
      rcases List.mem_cons.mp h with h1 | h2
      · exact h1 ▸ List.mem_cons_self _ _
      · exact List.mem_cons_of_mem _ (ih m h2)

theorem pyStrip_subset (l : List Char) (x : Char) :
    x ∈ pyStrip l → x ∈ l := by
  intro h
  unfold pyStrip at h
  rw [List.mem_reverse] at h
  have h2 := mem_dropWhileSub _ _ _ h
  rw [List.mem_reverse] at h2
  exact mem_dropWhileSub _ _ _ h2

theorem pySplit_ne_nil (sep : Char) (s : List Char) : pySplit sep s ≠ [] := by
  cases s with
  | nil => simp [pySplit]
  | cons c rest =>
    simp only [pySplit]
    cases hx : pySplit sep rest with
    | nil => simp
    | cons f fs =>
      by_cases h : c = sep
      · simp [h]
      · simp [h]

theorem pySplit_not_mem (sep : Char) (s : List Char) :
    ∀ f ∈ pySplit sep s, sep ∉ f := by
  induction s with
  | nil =>
    intro f hf
    simp [pySplit] at hf
    simp [hf]
  | cons c rest ih =>
    intro f hf
    simp only [pySplit] at hf
    cases hx : pySplit sep rest with
    | nil => exact absurd hx (pySplit_ne_nil sep rest)
    | cons g gs =>
      rw [hx] at hf
      have hf2 : f ∈ (if c = sep then [] :: g :: gs else (c :: g) :: gs) := hf
      have ihx : ∀ f ∈ g :: gs, sep ∉ f := by
        rw [← hx]
        exact ih
      by_cases hc : c = sep
      · rw [if_pos hc] at hf2
        rcases List.mem_cons.mp hf2 with h1 | h2
        · simp [h1]
        · exact ihx f h2
      · rw [if_neg hc] at hf2
        rcases List.mem_cons.mp hf2 with h1 | h2
        · subst h1
          intro hmem
          rcases List.mem_cons.mp hmem with h3 | h4
          · exact hc h3.symm
          · exact ihx g (List.mem_cons_self g gs) h4
        · exact ihx f (List.mem_cons_of_mem g h2)

theorem joinSep_ne_nil (sep : List Char) (fs : List (List Char))
    (h : ∀ f ∈ fs, f ≠ []) (hfs : fs ≠ []) : joinSep sep fs ≠ [] := by
  cases fs with
  | nil => exact absurd rfl hfs
  | cons x ys =>
    cases ys with
    | nil => simpa [joinSep] using h x (List.mem_cons_self _ _)
    | cons y rest =>
      simp only [joinSep]
      intro hx
      rcases List.append_eq_nil.mp hx with ⟨h1, h2⟩
      rcases List.append_eq_nil.mp h1 with ⟨h3, h4⟩
      exact h x (List.mem_cons_self _ _) h3

theorem pyEndsWith_single (c : Char) (f : List Char) (hne : f ≠ [])
    (hnm : c ∉ f) : pyEndsWith [c] f = false := by
  unfold pyEndsWith
  cases hr : f.reverse with
  | nil => exact absurd (List.reverse_eq_nil_iff.mp hr) hne
  | cons y ys =>
    have hy : y ∈ f := by
      rw [← List.mem_reverse, hr]
      exact List.mem_cons_self _ _
    have hcy : c ≠ y := fun h => hnm (h ▸ hy)
    simp [listStartsWith, hcy]

theorem pyEndsWith_append_single (c : Char) (a b : List Char) (hb : b ≠ []) :
    pyEndsWith [c] (a ++ b) = pyEndsWith [c] b := by
  unfold pyEndsWith
  rw [List.reverse_append]
  cases hr : b.reverse with
  | nil => exact absurd (List.reverse_eq_nil_iff.mp hr) hb
  | cons y ys => simp [listStartsWith]

theorem joinSep_no_period_end (fs : List (List Char))
    (h : ∀ f ∈ fs, f ≠ [] ∧ '.' ∉ f) (hfs : fs ≠ []) :
    pyEndsWith ['.'] (joinSep ". ".toList fs) = false := by
  induction fs with
  | nil => exact absurd rfl hfs
  | cons x ys ih =>
    cases ys with
    | nil =>
      have hx := h x (List.mem_cons_self _ _)
      simpa [joinSep] using pyEndsWith_single '.' x hx.1 hx.2
    | cons y rest =>
      have htail : joinSep ". ".toList (y :: rest) ≠ [] :=
        joinSep_ne_nil _ _ (fun f hf => (h f (List.mem_cons_of_mem _ hf)).1)
          (by simp)
      simp only [joinSep]
      rw [pyEndsWith_append_single '.' (x ++ ". ".toList) _ htail]
      exact ih (fun f hf => h f (List.mem_cons_of_mem _ hf)) (by simp)

theorem pyEndsWith_two (l : List Char) :
    pyEndsWith ['.', '.'] (l ++ ['.']) = pyEndsWith ['.'] l := by
  unfold pyEndsWith
  rw [List.reverse_append]
  simp [listStartsWith]

theorem summaryFragments_facts (s : List Char) :
    ∀ f ∈ summaryFragments s, f ≠ [] ∧ '.' ∉ f := by
  intro f hf
  simp only [summaryFragments, List.mem_filter] at hf
  obtain ⟨hmem, hne⟩ := hf
  obtain ⟨g, hg, rfl⟩ := List.mem_map.mp hmem
  constructor
  · intro h0
    rw [h0] at hne
    simp at hne
  · intro hdot
    exact pySplit_not_mem '.' s g hg (pyStrip_subset _ _ hdot)

theorem summarize_eq (s : List Char) (n : Nat) :
    summarize s n =
      (if summaryJoined s n = [] then [] else summaryJoined s n ++ ['.']) := by
  have hJdef : summaryJoined s n =
      joinSep ". ".toList
        ((((pySplit '.' s).map pyStrip).filter (fun f => !f.isEmpty)).take n) := rfl
  by_cases hJ : summaryJoined s n = []
  · rw [if_pos hJ]
    simp only [summarize]
    rw [← hJdef, hJ]
    simp
  · rw [if_neg hJ]
    have htake :
        (((pySplit '.' s).map pyStrip).filter (fun f => !f.isEmpty)).take n ≠ [] := by
      intro h0
      apply hJ
      rw [hJdef, h0]
      rfl
    have hend : pyEndsWith ['.'] (summaryJoined s n) = false := by
      rw [hJdef]
      apply joinSep_no_period_end
      · intro f hf
        exact summaryFragments_facts s f (memTakeListSub _ _ _ hf)
      · exact htake
    have hJe : (summaryJoined s n).isEmpty = false := by
      cases hJx : summaryJoined s n with
      | nil => exact absurd hJx hJ
      | cons a b => rfl
    simp only [summarize]
    rw [← hJdef]
    simp [hend, hJe]

theorem noSummaryMsg_contains (t : List Char) :
    containsSub "No summary available".toList (noSummaryMsg t) = true := by
  have h : noSummaryMsg t =
      "No summary available".toList ++
        (" for article ".toList ++ ([sqc] ++ (t ++ [sqc]))) := by
    simp only [noSummaryMsg, List.append_assoc]
    rw [show "No summary available for article ".toList =
        "No summary available".toList ++ " for article ".toList from by decide]
    simp [List.append_assoc]
  rw [h]
  exact containsSub_self _ _

theorem noSummary_wrap_contains (pre t : List Char) :
    containsSub "No summary available".toList (wrapPyError pre (noSummaryMsg t)) = true := by
  unfold wrapPyError
  split
  · exact noSummaryMsg_contains t
  · exact containsSub_append_left _ _ _ (noSummaryMsg_contains t)

/-- C4 amended: for a retrieved page and a sentence count N in [1,10],
`get_article_summary` splits the raw summary on periods, strips the
fragments and discards empty ones, keeps the first N, rejoins them with
`". "`, and, when at least one fragment survives (the rejoined text is
non-empty), the result ends with exactly one trailing period; when no
fragment survives the result is the empty string.  If the raw summary is
empty it fails with a no-content error. -/
theorem C4_summary_pipeline_amended (db : WikiDb) (title : List Char)
    (sentenceCount : Int) (page : Page)
    (hdb : db (pyStrip title) = some page) (ht : pyStrip title ≠ [])
    (hs1 : 1 ≤ sentenceCount) (hs2 : sentenceCount ≤ 10) :
    (page.summary = [] →
      ∃ e, get_article_summary db title sentenceCount = .error e ∧
        containsSub "No summary available".toList e = true) ∧
    (page.summary ≠ [] →
      get_article_summary db title sentenceCount =
        .ok (summarize page.summary sentenceCount.toNat) ∧
      summarize page.summary sentenceCount.toNat =
        (if summaryJoined page.summary sentenceCount.toNat = [] then []
         else summaryJoined page.summary sentenceCount.toNat ++ ['.']) ∧
      (summaryJoined page.summary sentenceCount.toNat ≠ [] →
        pyEndsWith ['.']
          (summarize page.summary sentenceCount.toNat) = true ∧
        pyEndsWith ['.', '.']
          (summarize page.summary sentenceCount.toNat) = false)) := by
  have hs : ¬ (sentenceCount < 1 ∨ sentenceCount > 10) := by omega
  constructor
  · intro hsum
    refine ⟨wrapPyError "Failed to get article summary: ".toList (noSummaryMsg title),
      ?_, noSummary_wrap_contains _ _⟩
    simp only [get_article_summary, hdb]
    rw [if_neg ht, if_neg hs, if_pos hsum]
  · intro hsum
    refine ⟨?_, summarize_eq _ _, ?_⟩
    · simp only [get_article_summary, hdb]
      rw [if_neg ht, if_neg hs, if_neg hsum]
    · intro hJ
      rw [summarize_eq, if_neg hJ]
      constructor
      · exact pyEndsWith_append ['.'] _
      · rw [pyEndsWith_two]
        have hJdef : summaryJoined page.summary sentenceCount.toNat =
            joinSep ". ".toList
              ((summaryFragments page.summary).take sentenceCount.toNat) := rfl
        rw [hJdef]
        apply joinSep_no_period_end
        · intro f hf
          exact summaryFragments_facts _ f (memTakeListSub _ _ _ hf)
        · intro h0
          apply hJ
          rw [hJdef, h0]
          rfl

/-- Witness for C4 amended at a one-sentence summary lacking a trailing
period. -/
theorem C4_summary_pipeline_amended_witness :
    get_article_summary (constDb (mkPage "Hello".toList [])) "T".toList 3 =
      .ok (summarize "Hello".toList 3) ∧
    summarize "Hello".toList 3 = "Hello.".toList ∧
    pyEndsWith ['.'] (summarize "Hello".toList 3) = true ∧
    pyEndsWith ['.', '.'] (summarize "Hello".toList 3) = false := by
  have h := (C4_summary_pipeline_amended (constDb (mkPage "Hello".toList []))
    "T".toList 3 (mkPage "Hello".toList []) rfl (by decide) (by decide)
    (by decide)).2 (by decide)
  obtain ⟨h1, _, h3⟩ := h
  obtain ⟨h4, h5⟩ := h3 (by decide)
  exact ⟨h1, by decide, h4, h5⟩

/-- C4 as stated is false: the non-empty raw summary `"."` yields no
surviving fragment, so the returned text is the empty string, which does
not end with a trailing period. -/
theorem C4_summary_pipeline_counterexample :
    get_article_summary (constDb (mkPage ['.'] [])) "T".toList 3 = .ok [] ∧
    pyEndsWith ['.'] [] = false :=
  ⟨by rfl, by decide⟩

/-- C10: `get_article_summary` is not the identity on short-enough raw
summaries: a summary lacking a trailing period gains one, and a newline
between sentences is replaced by the fixed `". "` separator. -/
theorem C10_summary_not_identity :
    (get_article_summary (constDb (mkPage "Hello".toList [])) "T".toList 3 =
        .ok "Hello.".toList ∧
      "Hello.".toList ≠ "Hello".toList) ∧
    (get_article_summary (constDb (mkPage "A.\nB.".toList [])) "T".toList 3 =
        .ok "A. B.".toList ∧
      "A. B.".toList ≠ "A.\nB.".toList) :=
  ⟨⟨by rfl, by decide⟩, ⟨by rfl, by decide⟩⟩

theorem firstTitleMatch_eq_find (u : List Char) (l : List (List Char)) :
    firstTitleMatch u l =
      l.find? (fun t => containsSub (pyLower u) (pyLower t)) := by
  induction l with
  | nil => rfl
  | cons t rest ih =>
    cases hx : containsSub (pyLower u) (pyLower t) with
    | true => simp [firstTitleMatch, List.find?, hx]
    | false => simp [firstTitleMatch, List.find?, hx, ih]

/-- C5: on the accepted-reply path of `interactive_search` (candidate
list of length at least 2), resolution tries a case-insensitive
substring match of the stripped reply against the candidate titles in
order (first match wins), then falls back to parsing the reply as a
1-based index: an in-range index selects that candidate and returns its
summary when the lookup succeeds, while a lookup failure is swallowed by
the `except ValueError: pass` around the numeric branch and, like a
non-numeric or out-of-range reply, yields the invalid-selection message
naming the valid input forms; in particular the worked example
(candidates `Python (programming language) / (mythology) / (snake)`,
reply `programming`) resolves to the first candidate's summary. -/
theorem C5_disambiguation_resolution :
    (∀ (searchFn : List Char → Int → List (List Char)) (db : WikiDb)
      (query data : List Char) (results : List (List Char)),
      pyStrip query ≠ [] →
      searchFn (pyStrip query) 8 = results →
      2 ≤ results.length →
      (∀ t : List Char,
        results.find?
          (fun c => containsSub (pyLower (pyStrip data)) (pyLower c)) = some t →
        interactive_search searchFn db (.accept data) query =
          get_article_summary db t 3) ∧
      (results.find?
          (fun c => containsSub (pyLower (pyStrip data)) (pyLower c)) = none →
        (∀ n : Int, pyParseInt (pyStrip data) = some n →
          1 ≤ n → n ≤ results.length →
          (∀ s : List Char,
            get_article_summary db (results.getD (n.toNat - 1) []) 3 = .ok s →
            interactive_search searchFn db (.accept data) query = .ok s) ∧
          (∀ e : List Char,
            get_article_summary db (results.getD (n.toNat - 1) []) 3 = .error e →
            interactive_search searchFn db (.accept data) query =
              .ok (invalidSelMsg (pyStrip data) results.length))) ∧
        (∀ n : Int, pyParseInt (pyStrip data) = some n →
          (n < 1 ∨ n > results.length) →
          interactive_search searchFn db (.accept data) query =
            .ok (invalidSelMsg (pyStrip data) results.length)) ∧
        (pyParseInt (pyStrip data) = none →
          interactive_search searchFn db (.accept data) query =
            .ok (invalidSelMsg (pyStrip data) results.length)))) ∧
    (∀ db : WikiDb,
      interactive_search pythonSearchFn db (.accept "programming".toList)
          "python".toList =
        get_article_summary db "Python (programming language)".toList 3) := by
  have hval : ¬((8 : Int) < 1 ∨ (8 : Int) > 10) := by norm_num
  constructor
  · intro searchFn db query data results hq hres hlen
    have hsearch : search_wikipedia searchFn query 8 = .ok results := by
      simp only [search_wikipedia]
      rw [if_neg hq, if_neg hval, hres]
    have hne : results ≠ [] := by
      intro h0
      rw [h0] at hlen
      simp at hlen
    have hlen1 : ¬ (results.length = 1) := by omega
    refine ⟨?_, ?_⟩
    · intro t hfind
      have hf : firstTitleMatch (pyStrip data) results = some t := by
        rw [firstTitleMatch_eq_find]
        exact hfind
      simp only [interactive_search]
      rw [if_neg hq, hsearch]
      simp only [if_neg hne, if_neg hlen1]
      rw [hf]
    · intro hfind
      have hf : firstTitleMatch (pyStrip data) results = none := by
        rw [firstTitleMatch_eq_find]
        exact hfind
      refine ⟨?_, ?_, ?_⟩
      · intro n hparse h1n h2n
        constructor
        · intro s hsum
          simp only [interactive_search]
          rw [if_neg hq, hsearch]
          simp only [if_neg hne, if_neg hlen1]
          rw [hf, hparse]
          show (if 1 ≤ n ∧ n ≤ (results.length : Int) then
              match get_article_summary db (results.getD (n.toNat - 1) []) 3 with
              | .ok s2 => Except.ok s2
              | .error _ =>
                Except.ok (invalidSelMsg (pyStrip data) results.length)
            else Except.ok (invalidSelMsg (pyStrip data) results.length)) = _
          rw [if_pos ⟨h1n, h2n⟩, hsum]
        · intro e hsum
          simp only [interactive_search]
          rw [if_neg hq, hsearch]
          simp only [if_neg hne, if_neg hlen1]
          rw [hf, hparse]
          show (if 1 ≤ n ∧ n ≤ (results.length : Int) then
              match get_article_summary db (results.getD (n.toNat - 1) []) 3 with
              | .ok s2 => Except.ok s2
              | .error _ =>
                Except.ok (invalidSelMsg (pyStrip data) results.length)
            else Except.ok (invalidSelMsg (pyStrip data) results.length)) = _
          rw [if_pos ⟨h1n, h2n⟩, hsum]
      · intro n hparse hout
        have hnot : ¬ (1 ≤ n ∧ n ≤ (results.length : Int)) := by omega
        simp only [interactive_search]
        rw [if_neg hq, hsearch]
        simp only [if_neg hne, if_neg hlen1]
        rw [hf, hparse]
        show (if 1 ≤ n ∧ n ≤ (results.length : Int) then
            match get_article_summary db (results.getD (n.toNat - 1) []) 3 with
            | .ok s2 => Except.ok s2
            | .error _ =>
              Except.ok (invalidSelMsg (pyStrip data) results.length)
          else Except.ok (invalidSelMsg (pyStrip data) results.length)) = _
        rw [if_neg hnot]
      · intro hparse
        simp only [interactive_search]
        rw [if_neg hq, hsearch]
        simp only [if_neg hne, if_neg hlen1]
        rw [hf, hparse]
  · intro db
    rfl

set_option maxRecDepth 8000 in
/-- Witness for C5: reply `"2"` with an article source that resolves the
second candidate returns its summary; the same reply against an empty
article source hits the swallowed `ValueError` and yields the
invalid-selection message; reply `"programming"` resolves by substring
match. -/
theorem C5_disambiguation_resolution_witness :
    interactive_search pythonSearchFn
        (constDb (mkPage "Greek myth.".toList [])) (.accept "2".toList)
        "python".toList =
      .ok (summarize "Greek myth.".toList 3) ∧
    interactive_search pythonSearchFn emptyDb (.accept "2".toList)
        "python".toList =
      .ok (invalidSelMsg "2".toList 3) ∧
    interactive_search pythonSearchFn emptyDb (.accept "programming".toList)
        "python".toList =
      get_article_summary emptyDb "Python (programming language)".toList 3 := by
  have hok := ((C5_disambiguation_resolution.1 pythonSearchFn
    (constDb (mkPage "Greek myth.".toList [])) "python".toList "2".toList
    pythonCandidates (by decide) rfl (by decide)).2 (by decide)).1 2
    (by decide) (by decide) (by decide)
  have herr := ((C5_disambiguation_resolution.1 pythonSearchFn emptyDb
    "python".toList "2".toList pythonCandidates (by decide) rfl
    (by decide)).2 (by decide)).1 2 (by decide) (by decide) (by decide)
  refine ⟨hok.1 (summarize "Greek myth.".toList 3) (by rfl), ?_, ?_⟩
  · have h2 := herr.2
      (notFoundMsg "Python (mythology)".toList) (by rfl)
    exact h2.trans (by rfl)
  · exact C5_disambiguation_resolution.2 emptyDb

/-- C6: when the search step of `interactive_search` yields exactly one
candidate, the elicitation reply is never consulted (the result is the
same for every reply) and the summary of that single title is returned
directly; when it yields zero candidates, the no-results message is
returned (again for every reply). -/
theorem C6_single_result_no_elicitation
    (searchFn : List Char → Int → List (List Char)) (db : WikiDb)
    (query t : List Char) (hq : pyStrip query ≠ []) :
    (searchFn (pyStrip query) 8 = [t] →
      ∀ e1 e2 : ElicitResult,
        interactive_search searchFn db e1 query = get_article_summary db t 3 ∧
        interactive_search searchFn db e1 query =
          interactive_search searchFn db e2 query) ∧
    (searchFn (pyStrip query) 8 = [] →
      ∀ e1 e2 : ElicitResult,
        interactive_search searchFn db e1 query = .ok (noResultsMsg query) ∧
        interactive_search searchFn db e1 query =
          interactive_search searchFn db e2 query) := by
  have hval : ¬((8 : Int) < 1 ∨ (8 : Int) > 10) := by norm_num
  constructor
  · intro hres e1 e2
    have hsearch : search_wikipedia searchFn query 8 = .ok [t] := by
      simp only [search_wikipedia]
      rw [if_neg hq, if_neg hval, hres]
    have key : ∀ e : ElicitResult,
        interactive_search searchFn db e query = get_article_summary db t 3 := by
      intro e
      simp only [interactive_search]
      rw [if_neg hq, hsearch]
      simp
    exact ⟨key e1, (key e1).trans (key e2).symm⟩
  · intro hres e1 e2
    have hsearch : search_wikipedia searchFn query 8 = .ok [] := by
      simp only [search_wikipedia]
      rw [if_neg hq, if_neg hval, hres]
    have key : ∀ e : ElicitResult,
        interactive_search searchFn db e query = .ok (noResultsMsg query) := by
      intro e
      simp only [interactive_search]
      rw [if_neg hq, hsearch]
      simp
    exact ⟨key e1, (key e1).trans (key e2).symm⟩

/-- Witness for C6 at a concrete one-candidate search and a concrete
empty search, with an accepting and a declining reply. -/
theorem C6_single_result_no_elicitation_witness :
    interactive_search (fun _ _ => ["Single Article".toList]) emptyDb
        (.accept "x".toList) "unique query".toList =
      get_article_summary emptyDb "Single Article".toList 3 ∧
    interactive_search (fun _ _ => ["Single Article".toList]) emptyDb
        (.accept "x".toList) "unique query".toList =
      interactive_search (fun _ _ => ["Single Article".toList]) emptyDb
        .declined "unique query".toList ∧
    interactive_search (fun _ _ => []) emptyDb (.accept "x".toList)
        "nothing".toList = .ok (noResultsMsg "nothing".toList) := by
  have h1 := (C6_single_result_no_elicitation (fun _ _ => ["Single Article".toList])
    emptyDb "unique query".toList "Single Article".toList (by decide)).1 rfl
    (.accept "x".toList) .declined
  have h2 := (C6_single_result_no_elicitation (fun _ _ => [])
    emptyDb "nothing".toList [] (by decide)).2 rfl
    (.accept "x".toList) .declined
  exact ⟨h1.1, h1.2, h2.1⟩

/-- C9: in the CLI chat loop, an input equal to `quit`, `exit` or `q`
breaks the loop cleanly (no further input is processed), and whenever
the agent call raises, the exception is caught, the error line is
printed, the iteration does not terminate, and the loop goes on to
process the remaining inputs. -/
theorem C9_chat_loop (agent : List Char → Except (List Char) (List Char))
    (rest : List (List Char)) :
    (chatLoop agent ("quit".toList :: rest) =
        [["👋 Thanks for using MCP Research Assistant!".toList]] ∧
     chatLoop agent ("exit".toList :: rest) =
        [["👋 Thanks for using MCP Research Assistant!".toList]] ∧
     chatLoop agent ("q".toList :: rest) =
        [["👋 Thanks for using MCP Research Assistant!".toList]]) ∧
    (∀ (rawInput e : List Char),
      pyLower (pyStrip rawInput) ∉ QUIT_COMMANDS →
      pyLower (pyStrip rawInput) ∉ HISTORY_COMMANDS →
      pyLower (pyStrip rawInput) ∉ CLEAR_COMMANDS →
      pyStrip rawInput ≠ [] →
      agent (pyStrip rawInput) = .error e →
      (chatStep agent rawInput).terminate = false ∧
      errorReportLine e ∈ (chatStep agent rawInput).output ∧
      chatLoop agent (rawInput :: rest) =
        (chatStep agent rawInput).output :: chatLoop agent rest) := by
  constructor
  · exact ⟨rfl, rfl, rfl⟩
  · intro rawInput e hq hh hc hne herr
    have hstep : chatStep agent rawInput =
        { terminate := false,
          output := [errorReportLine e,
            "Please try rephrasing your question or check your connection.\n".toList] } := by
      simp only [chatStep]
      rw [if_neg hq, if_neg hh, if_neg hc, if_neg hne, herr]
    refine ⟨by rw [hstep], by rw [hstep]; exact List.mem_cons_self _ _, ?_⟩
    simp only [chatLoop]
    rw [hstep]
    rfl

/-- Witness for C9: a quitting session and an erroring agent call at
concrete inputs. -/
theorem C9_chat_loop_witness :
    chatLoop (fun _ => .error "boom".toList) ["quit".toList, "hello".toList] =
      [["👋 Thanks for using MCP Research Assistant!".toList]] ∧
    (chatStep (fun _ => .error "boom".toList) "hello".toList).terminate = false ∧
    errorReportLine "boom".toList ∈
      (chatStep (fun _ => .error "boom".toList) "hello".toList).output ∧
    chatLoop (fun _ => .error "boom".toList) ["hello".toList] =
      [(chatStep (fun _ => .error "boom".toList) "hello".toList).output] := by
  have h1 := (C9_chat_loop (fun _ => .error "boom".toList) ["hello".toList]).1.1
  have h2 := (C9_chat_loop (fun _ => .error "boom".toList) []).2 "hello".toList
    "boom".toList (by decide) (by decide) (by decide) (by decide) rfl
  exact ⟨h1, h2.1, h2.2.1, h2.2.2.trans rfl⟩
